import Mathlib

/-!
Verification of the festival-map event/venue filtering pipeline
(src/festival-map/src/App.js).

The development shallowly embeds the data-handling core of the App:
JavaScript objects keyed by strings become association lists (`Dict`),
ISO-8601 timestamps parsed into `Date` instants become `Int`,
geographic coordinates become `Rat`.  Each definition is translated
from the corresponding place in the source file.
-/

set_option autoImplicit false

namespace FestivalMap

/-- Model of a JavaScript object with string keys: an association list in
insertion order, at most one binding per key when built with `dictSet`. -/
abbrev Dict (α : Type) : Type := List (String × α)

/-- Property read `obj[k]`: the first binding of key `k`, if any. -/
def dictGet {α : Type} : Dict α → String → Option α
  | [], _ => none
  | kv :: rest, k => if kv.1 = k then some kv.2 else dictGet rest k

/-- Property write `obj[k] = v`: overwrite the binding in place if the key is
present, otherwise append a new binding (JavaScript insertion order). -/
def dictSet {α : Type} : Dict α → String → α → Dict α
  | [], k, v => [(k, v)]
  | kv :: rest, k, v => if kv.1 = k then (k, v) :: rest else kv :: dictSet rest k v

/-- The key list `Object.keys(obj)`. -/
def dictKeys {α : Type} (d : Dict α) : List String :=
  d.map (fun kv => kv.1)

/-- Removal of every binding of key `k` (used to state that a key contributes
nothing to a computation). -/
def dictRemove {α : Type} (d : Dict α) (k : String) : Dict α :=
  d.filter (fun kv => !(kv.1 = k : Bool))

/-- The nested `loc` object of a raw place record. -/
structure RawLoc where
  latitude : Rat
  longitude : Rat
  deriving DecidableEq, Repr

/-- A raw record of `data.places`.  `loc` is optional: a malformed record
lacks its nested location object. -/
structure RawVenue where
  place_id : String
  name : String
  address : String
  loc : Option RawLoc
  tags : List String
  town : String
  deriving DecidableEq, Repr

/-- The normalized venue shape built in the places effect (App.js lines
116-124): the object literal with fields address, name, id, lat, lon,
tags, town. -/
structure Venue where
  address : String
  name : String
  id : String
  lat : Rat
  lon : Rat
  tags : List String
  town : String
  deriving DecidableEq, Repr

/-- The per-record mapping of the places effect, `data.places.map(place =>
(...))` (App.js lines 116-124).  The source reads `place.loc.latitude`
unconditionally; when `loc` is absent that access throws, which the
embedding renders as `none`. -/
def placeInfo (place : RawVenue) : Option Venue :=
  match place.loc with
  | none => none
  | some l =>
    some ⟨place.address, place.name, place.place_id, l.latitude, l.longitude,
          place.tags, place.town⟩

/-- `List.map` with a callback that can throw: a single failure aborts the
whole traversal, as an uncaught exception inside a promise callback does. -/
def mapOrThrow {α β : Type} (f : α → Option β) : List α → Option (List β)
  | [] => some []
  | a :: rest =>
    match f a, mapOrThrow f rest with
    | some b, some bs => some (b :: bs)
    | _, _ => none

/-- VenueIndex.Build (App.js lines 116-130): map each raw place record to the
`Venue` shape, then fold `dict[el.id] = el` over the results.  A record
lacking `loc` throws inside the `then` callback, so nothing is produced. -/
def buildVenueIndex (rawPlaces : List RawVenue) : Option (Dict Venue) :=
  match mapOrThrow placeInfo rawPlaces with
  | none => none
  | some info => some (info.foldl (fun dict el => dictSet dict el.id el) [])

/-- Spec-side variant of VenueIndex.Build for comparison: the behavior the
spec prescribes, namely skip a record lacking its location and keep every
well-formed record (spec section 4.1, recommended fixed behavior). -/
def buildVenueIndexSkip (rawPlaces : List RawVenue) : Dict Venue :=
  (rawPlaces.filterMap placeInfo).foldl (fun dict el => dictSet dict el.id el) []

/-- The last raw place record carrying a given id, in input order. -/
def lastRecordFor (rawPlaces : List RawVenue) (k : String) : Option RawVenue :=
  rawPlaces.foldl (fun acc p => if p.place_id = k then some p else acc) none

/-- A schedule entry of a raw event record (`el.schedules` element). -/
structure RawSchedule where
  place_id : String
  start_ts : Int
  end_ts : Int
  performances : String
  place : String
  deriving DecidableEq, Repr

/-- A raw record of `data.events`. -/
structure RawEvent where
  event_id : String
  name : String
  status : String
  schedules : List RawSchedule
  deriving DecidableEq, Repr

/-- One event occurrence: the object built by `filterr` (App.js lines
153-165), combining event-level and schedule-level fields. -/
structure EventOccurrence where
  event_id : String
  name : String
  status : String
  start_ts : Int
  end_ts : Int
  performances : String
  place : String
  deriving DecidableEq, Repr

/-- `filterr(event, place)` (App.js lines 153-165): combine the event-level
fields event_id, name, status with the schedule-level fields start_ts,
end_ts, performances, place. -/
def filterr (event : RawEvent) (place : RawSchedule) : EventOccurrence :=
  ⟨event.event_id, event.name, event.status, place.start_ts, place.end_ts,
   place.performances, place.place⟩

/-- One step of the events effect (App.js lines 203-210): push
`filterr(el, place)` onto `dict[place.place_id]`, creating the singleton
list when the key is absent. -/
def eventStep (dict : Dict (List EventOccurrence)) (el : RawEvent)
    (place : RawSchedule) : Dict (List EventOccurrence) :=
  match dictGet dict place.place_id with
  | some l => dictSet dict place.place_id (l ++ [filterr el place])
  | none => dictSet dict place.place_id [filterr el place]

/-- EventIndex.Build (App.js lines 198-216): the nested forEach loops over
events and their schedule entries, grouping occurrences by the schedule
entry's place_id. -/
def buildEventIndex (rawEvents : List RawEvent) : Dict (List EventOccurrence) :=
  rawEvents.foldl
    (fun dict el => el.schedules.foldl (fun d place => eventStep d el place) dict)
    []

/-- The occurrences a key should receive, in ingestion order: for each raw
event in input order, one occurrence per schedule entry carrying that
place_id, in schedule order, with no sorting. -/
def occurrencesFor (rawEvents : List RawEvent) (k : String) : List EventOccurrence :=
  rawEvents.foldr
    (fun el acc =>
      (el.schedules.filter (fun p => decide (p.place_id = k))).map (filterr el) ++ acc)
    []

/-- `validEvent(event)` (App.js lines 167-184): keep the occurrences whose
start instant lies between sdate and edate, both ends inclusive, pushing
them in input order. -/
def validEvent (sdate edate : Int) (event : List EventOccurrence) :
    List EventOccurrence :=
  event.foldl
    (fun validated ev =>
      if sdate ≤ ev.start_ts ∧ ev.start_ts ≤ edate then validated ++ [ev]
      else validated)
    []

/-- The membership predicate of the date-range filter. -/
def inRange (sdate edate : Int) (ev : EventOccurrence) : Bool :=
  decide (sdate ≤ ev.start_ts ∧ ev.start_ts ≤ edate)

/-- The map center tracked by the zoomend and moveend handlers. -/
structure Centre where
  lat : Rat
  lng : Rat
  deriving DecidableEq, Repr

/-- The latitude window constant of the proximity gate (App.js line 235). -/
def latd : Rat := 1 / 100

/-- The longitude window constant of the proximity gate (App.js line 236). -/
def lond : Rat := 3 / 100

/-- The gate condition at App.js line 243: the proximity test is
short-circuited by `|| true`. -/
def proximityGate (temp : Venue) (centre : Centre) : Bool :=
  (decide (|temp.lat - centre.lat| ≤ latd) &&
   decide (|temp.lon - centre.lng| ≤ lond)) || true

/-- One rendered marker of EventsComponent: its key (the place id), the venue
it is positioned at, and the filtered occurrence list handed to the popup. -/
structure MarkerEntry where
  venueId : String
  venue : Venue
  occurrences : List EventOccurrence
  deriving DecidableEq, Repr

/-- The body of the render callback (App.js lines 232-269) for one key of the
events dict: skip when the place is unknown, apply the gate, filter by date
range, and emit a marker only when some occurrence survives. -/
def markerFor (places : Dict Venue) (events : Dict (List EventOccurrence))
    (sdate edate : Int) (centre : Centre) (index : String) : Option MarkerEntry :=
  match dictGet events index with
  | none => none
  | some event =>
    match dictGet places index with
    | none => none
    | some temp =>
      if proximityGate temp centre then
        let validEvents := validEvent sdate edate event
        if validEvents.length > 0 then some ⟨index, temp, validEvents⟩
        else none
      else none

/-- VisibleMarkerSet: the marker list computed in EventsComponent's render
(App.js lines 230-272), `Object.keys(events).map(...)` with the null
results dropped. -/
def visibleMarkerSet (places : Dict Venue) (events : Dict (List EventOccurrence))
    (sdate edate : Int) (centre : Centre) : List MarkerEntry :=
  (dictKeys events).filterMap (markerFor places events sdate edate centre)

/-- The completion continuation of `fetchh` (App.js lines 24-34): `setBus(data)`
replaces the detail slot with the fetched payload unconditionally. -/
def fetchhComplete {α : Type} (_bus : α) (data : α) : α := data

/-- The detail slot after a sequence of fetch completions has been applied in
completion order. -/
def detailSlotAfter {α : Type} (init : α) (completions : List α) : α :=
  completions.foldl fetchhComplete init

/-- The discrete triggers of the component that could issue work: component
mount, a date-range change, a viewport change, and a click on a popup
entry's Details button. -/
inductive UITrigger : Type where
  | mount : UITrigger
  | dateRangeChange : Int → Int → UITrigger
  | viewportChange : Centre → UITrigger
  | popupDetailClick : String → UITrigger
  deriving DecidableEq, Repr

/-- The detail requests each trigger issues, read off the source: the effect
`useEffect(() => fetchh(1, setBus), [])` (App.js lines 99-101) fires once on
mount with id 1; the Details button (App.js line 84) fires
`fetchh(ev.event_id, setBus)`; no other call site invokes `fetchh`, and the
date-range and viewport handlers issue none. -/
def detailRequestsOf : UITrigger → List String
  | UITrigger.mount => ["1"]
  | UITrigger.dateRangeChange _ _ => []
  | UITrigger.viewportChange _ => []
  | UITrigger.popupDetailClick id => [id]

/-! Dictionary lemmas -/

theorem dictGet_dictSet {α : Type} (d : Dict α) (k k' : String) (v : α) :
    dictGet (dictSet d k v) k' = if k = k' then some v else dictGet d k' := by
  induction d with
  | nil => simp [dictGet, dictSet]
  | cons kv rest ih =>
    by_cases h1 : kv.1 = k
    · by_cases h2 : k = k' <;> simp [dictSet, dictGet, h1, h2]
    · by_cases h2 : kv.1 = k'
      · have hne : ¬ k = k' := by intro h; exact h1 (by rw [h2, ← h])
        have hne' : ¬ k' = k := fun hh => hne hh.symm
        simp [dictSet, dictGet, h1, h2, hne, hne']
      · simp [dictSet, dictGet, h1, h2, ih]

theorem dictGet_dictRemove {α : Type} (d : Dict α) (k k' : String) (h : k' ≠ k) :
    dictGet (dictRemove d k) k' = dictGet d k' := by
  induction d with
  | nil => simp [dictGet, dictRemove]
  | cons kv rest ih =>
    have hkk : ¬ k = k' := fun hh => h hh.symm
    by_cases h1 : kv.1 = k
    · have : ¬ kv.1 = k' := fun hc => h (hc ▸ h1)
      simp only [dictRemove, List.filter] at *
      simp [h1, this, dictGet, ih, hkk]
    · simp only [dictRemove, List.filter] at *
      by_cases h2 : kv.1 = k' <;> simp [h1, h2, dictGet, ih, h, hkk]

theorem dictKeys_dictRemove {α : Type} (d : Dict α) (k : String) :
    dictKeys (dictRemove d k) = (dictKeys d).filter (fun x => !(x = k : Bool)) := by
  induction d with
  | nil => rfl
  | cons kv rest ih =>
    simp only [dictRemove, dictKeys, List.filter] at *
    by_cases h1 : kv.1 = k <;> simp [h1, ih, dictRemove, dictKeys]

/-! C1: the date-range filter -/

theorem validEvent_eq_filter_aux (sdate edate : Int) (l acc : List EventOccurrence) :
    l.foldl
      (fun validated ev =>
        if sdate ≤ ev.start_ts ∧ ev.start_ts ≤ edate then validated ++ [ev]
        else validated)
      acc = acc ++ l.filter (inRange sdate edate) := by
  induction l generalizing acc with
  | nil => simp
  | cons ev rest ih =>
    by_cases h : sdate ≤ ev.start_ts ∧ ev.start_ts ≤ edate <;>
      simp [List.foldl, h, ih, inRange, List.filter_cons]

theorem validEvent_eq_filter (sdate edate : Int) (l : List EventOccurrence) :
    validEvent sdate edate l = l.filter (inRange sdate edate) := by
  simpa using validEvent_eq_filter_aux sdate edate l []

/-- C1: `validEvent` keeps exactly the occurrences whose start instant lies in
the inclusive range from sdate to edate, preserving order, and a range with
sdate greater than edate yields the empty list on every input. -/
theorem dateRangeFilter_correct (sdate edate : Int) (l : List EventOccurrence) :
    validEvent sdate edate l = l.filter (inRange sdate edate) ∧
    (∀ ev, ev ∈ validEvent sdate edate l ↔
      ev ∈ l ∧ sdate ≤ ev.start_ts ∧ ev.start_ts ≤ edate) ∧
    (edate < sdate → validEvent sdate edate l = []) := by
  refine ⟨validEvent_eq_filter sdate edate l, ?_, ?_⟩
  · intro ev
    rw [validEvent_eq_filter, List.mem_filter]
    simp [inRange]
  · intro hlt
    rw [validEvent_eq_filter]
    apply List.filter_eq_nil_iff.mpr
    intro ev _
    simp only [inRange, decide_eq_true_eq]
    omega

/-- A sample occurrence used by concrete witnesses. -/
def occEx : EventOccurrence :=
  ⟨"e1", "Concert", "scheduled", 100, 200, "perf", "placeblob"⟩

/-- A second sample occurrence, with a later start instant. -/
def occEx2 : EventOccurrence :=
  ⟨"e2", "Reading", "scheduled", 500, 600, "perf2", "placeblob2"⟩

/-- Witness for C1 at a concrete input: an inverted range (5 > 3) empties the
list, and the filter equation holds there. -/
theorem dateRangeFilter_correct_witness :
    validEvent 5 3 [occEx] = [occEx].filter (inRange 5 3) ∧
    validEvent 5 3 [occEx] = [] := by
  refine ⟨(dateRangeFilter_correct 5 3 [occEx]).1, ?_⟩
  exact (dateRangeFilter_correct 5 3 [occEx]).2.2 (by decide)

/-! C4 and C10: the event index -/

theorem dictGet_eventStep (d : Dict (List EventOccurrence)) (el : RawEvent)
    (place : RawSchedule) (k : String) :
    (dictGet (eventStep d el place) k).getD [] =
      if place.place_id = k then (dictGet d k).getD [] ++ [filterr el place]
      else (dictGet d k).getD [] := by
  unfold eventStep
  cases hd : dictGet d place.place_id with
  | none =>
    rw [dictGet_dictSet]
    by_cases hk : place.place_id = k
    · subst hk; simp [hd]
    · simp [hk]
  | some l =>
    rw [dictGet_dictSet]
    by_cases hk : place.place_id = k
    · subst hk; simp [hd]
    · simp [hk]

theorem dictGet_schedules_foldl (schedules : List RawSchedule) (el : RawEvent)
    (d : Dict (List EventOccurrence)) (k : String) :
    (dictGet (schedules.foldl (fun d place => eventStep d el place) d) k).getD [] =
      (dictGet d k).getD [] ++
        (schedules.filter (fun p => decide (p.place_id = k))).map (filterr el) := by
  induction schedules generalizing d with
  | nil => simp
  | cons place rest ih =>
    rw [List.foldl_cons, ih, dictGet_eventStep, List.filter_cons]
    by_cases hk : place.place_id = k <;> simp [hk]

theorem dictGet_events_foldl (rawEvents : List RawEvent)
    (d : Dict (List EventOccurrence)) (k : String) :
    (dictGet (rawEvents.foldl
        (fun dict el => el.schedules.foldl (fun d place => eventStep d el place) dict)
        d) k).getD [] =
      (dictGet d k).getD [] ++ occurrencesFor rawEvents k := by
  induction rawEvents generalizing d with
  | nil => simp [occurrencesFor]
  | cons el rest ih =>
    rw [List.foldl_cons, ih, dictGet_schedules_foldl]
    simp [occurrencesFor, List.foldr_cons]

/-- C4: EventIndex.Build emits exactly one occurrence per schedule entry,
built by `filterr` from the event-level and schedule-level fields, grouped
under the schedule entry's place_id, in ingestion order with no sorting. -/
theorem eventIndex_groups_in_order (rawEvents : List RawEvent) (k : String) :
    (dictGet (buildEventIndex rawEvents) k).getD [] = occurrencesFor rawEvents k := by
  unfold buildEventIndex
  rw [dictGet_events_foldl]
  simp [dictGet]

/-- All values of an event dict are non-empty lists. -/
def dictValuesNonempty (d : Dict (List EventOccurrence)) : Prop :=
  ∀ k l, dictGet d k = some l → l ≠ []

theorem dictValuesNonempty_dictSet (d : Dict (List EventOccurrence)) (k : String)
    (v : List EventOccurrence) (hd : dictValuesNonempty d) (hv : v ≠ []) :
    dictValuesNonempty (dictSet d k v) := by
  intro k' l hget
  rw [dictGet_dictSet] at hget
  by_cases hk : k = k'
  · simp [hk] at hget; exact hget ▸ hv
  · exact hd k' l (by simpa [hk] using hget)

theorem dictValuesNonempty_eventStep (d : Dict (List EventOccurrence))
    (el : RawEvent) (place : RawSchedule) (hd : dictValuesNonempty d) :
    dictValuesNonempty (eventStep d el place) := by
  unfold eventStep
  cases hg : dictGet d place.place_id with
  | none => exact dictValuesNonempty_dictSet d _ _ hd (by simp)
  | some l => exact dictValuesNonempty_dictSet d _ _ hd (by simp)

theorem dictValuesNonempty_schedules_foldl (schedules : List RawSchedule)
    (el : RawEvent) (d : Dict (List EventOccurrence)) (hd : dictValuesNonempty d) :
    dictValuesNonempty (schedules.foldl (fun d place => eventStep d el place) d) := by
  induction schedules generalizing d with
  | nil => exact hd
  | cons place rest ih =>
    exact ih _ (dictValuesNonempty_eventStep d el place hd)

theorem dictValuesNonempty_events_foldl (rawEvents : List RawEvent)
    (d : Dict (List EventOccurrence)) (hd : dictValuesNonempty d) :
    dictValuesNonempty (rawEvents.foldl
      (fun dict el => el.schedules.foldl (fun d place => eventStep d el place) dict)
      d) := by
  induction rawEvents generalizing d with
  | nil => exact hd
  | cons el rest ih =>
    exact ih _ (dictValuesNonempty_schedules_foldl el.schedules el d hd)

/-- C10: every value of the mapping produced by EventIndex.Build is a
non-empty occurrence list. -/
theorem eventIndex_values_nonempty (rawEvents : List RawEvent) (k : String)
    (l : List EventOccurrence) (h : dictGet (buildEventIndex rawEvents) k = some l) :
    l ≠ [] := by
  refine dictValuesNonempty_events_foldl rawEvents [] ?_ k l h
  intro k l hget
  simp [dictGet] at hget

/-- A sample schedule entry at venue v1. -/
def schedEx : RawSchedule := ⟨"v1", 100, 200, "perf", "placeblob"⟩

/-- A second sample schedule entry, also at venue v1, later start. -/
def schedEx2 : RawSchedule := ⟨"v1", 500, 600, "perf2", "placeblob2"⟩

/-- A sample raw event with two schedule entries at v1. -/
def rawEventEx : RawEvent := ⟨"e1", "Concert", "scheduled", [schedEx]⟩

/-- A second sample raw event. -/
def rawEventEx2 : RawEvent := ⟨"e2", "Reading", "scheduled", [schedEx2]⟩

/-- Witness for C10 at a concrete input: the built index maps v1 to a
non-empty list. -/
theorem eventIndex_values_nonempty_witness :
    dictGet (buildEventIndex [rawEventEx, rawEventEx2]) "v1" = some [occEx, occEx2] ∧
    ([occEx, occEx2] : List EventOccurrence) ≠ [] := by
  refine ⟨by decide, ?_⟩
  exact eventIndex_values_nonempty [rawEventEx, rawEventEx2] "v1" [occEx, occEx2]
    (by decide)

/-! C6 and C7: the venue index -/

theorem dictGet_venues_foldl (vs : List Venue) (d : Dict Venue) (k : String) :
    dictGet (vs.foldl (fun dict el => dictSet dict el.id el) d) k =
      vs.foldl (fun acc v => if v.id = k then some v else acc) (dictGet d k) := by
  induction vs generalizing d with
  | nil => rfl
  | cons v rest ih =>
    rw [List.foldl_cons, List.foldl_cons, ih, dictGet_dictSet]

theorem placeInfo_id (place : RawVenue) (v : Venue) (h : placeInfo place = some v) :
    v.id = place.place_id := by
  unfold placeInfo at h
  cases hl : place.loc with
  | none => rw [hl] at h; exact absurd h (by simp)
  | some l => rw [hl] at h; simp at h; rw [← h]

theorem foldl_last_record_corr (rawPlaces : List RawVenue) (info : List Venue)
    (h : mapOrThrow placeInfo rawPlaces = some info) (k : String)
    (a : Option RawVenue) :
    info.foldl (fun acc v => if v.id = k then some v else acc) (a.bind placeInfo) =
      (rawPlaces.foldl (fun acc p => if p.place_id = k then some p else acc) a).bind
        placeInfo := by
  induction rawPlaces generalizing info a with
  | nil =>
    unfold mapOrThrow at h
    simp at h
    rw [h]
    rfl
  | cons p rest ih =>
    unfold mapOrThrow at h
    cases hp : placeInfo p with
    | none => rw [hp] at h; exact absurd h (by simp)
    | some v =>
      cases hr : mapOrThrow placeInfo rest with
      | none => rw [hp, hr] at h; exact absurd h (by simp)
      | some bs =>
        rw [hp, hr] at h
        simp at h
        rw [← h, List.foldl_cons, List.foldl_cons]
        have hstep :
            (if v.id = k then some v else a.bind placeInfo) =
              (if p.place_id = k then some p else a).bind placeInfo := by
          rw [placeInfo_id p v hp]
          by_cases hk : p.place_id = k
          · simp [hk, hp]
          · simp [hk]
        rw [hstep, ih bs hr]

/-- C6: when VenueIndex.Build succeeds, looking up any key yields the Venue
shape built from the last input record carrying that place_id (later
records overwrite earlier ones with the same id). -/
theorem venueIndex_last_wins (rawPlaces : List RawVenue) (d : Dict Venue)
    (h : buildVenueIndex rawPlaces = some d) (k : String) :
    dictGet d k = (lastRecordFor rawPlaces k).bind placeInfo := by
  unfold buildVenueIndex at h
  cases hm : mapOrThrow placeInfo rawPlaces with
  | none => rw [hm] at h; exact absurd h (by simp)
  | some info =>
    rw [hm] at h
    simp at h
    rw [← h, dictGet_venues_foldl]
    have : (dictGet ([] : Dict Venue) k) = (none : Option RawVenue).bind placeInfo := rfl
    rw [this, foldl_last_record_corr rawPlaces info hm k none]
    rfl

/-- A sample raw venue record with id p1. -/
def rawVenueEx : RawVenue :=
  ⟨"p1", "Old Hall", "1 Street", some ⟨55, -3⟩, ["music"], "Edinburgh"⟩

/-- A second sample raw venue record carrying the same id p1. -/
def rawVenueEx2 : RawVenue :=
  ⟨"p1", "New Hall", "2 Street", some ⟨56, -4⟩, ["art"], "Leith"⟩

/-- The Venue shape of `rawVenueEx`. -/
def venueEx : Venue := ⟨"1 Street", "Old Hall", "p1", 55, -3, ["music"], "Edinburgh"⟩

/-- The Venue shape of `rawVenueEx2`. -/
def venueEx2 : Venue := ⟨"2 Street", "New Hall", "p1", 56, -4, ["art"], "Leith"⟩

/-- Witness for C6 at a concrete input with a duplicated id: the build
succeeds and the mapping holds the later record's attributes. -/
theorem venueIndex_last_wins_witness :
    dictGet [("p1", venueEx2)] "p1" =
      (lastRecordFor [rawVenueEx, rawVenueEx2] "p1").bind placeInfo ∧
    (lastRecordFor [rawVenueEx, rawVenueEx2] "p1").bind placeInfo = some venueEx2 := by
  refine ⟨?_, by decide⟩
  exact venueIndex_last_wins [rawVenueEx, rawVenueEx2] [("p1", venueEx2)] (by decide) "p1"

/-- A malformed raw venue record: its nested location object is absent. -/
def rawVenueNoLoc : RawVenue := ⟨"p2", "Ghost Hall", "9 Street", none, [], "Edinburgh"⟩

/-- C7: evaluated at an input holding one well-formed record and one record
lacking its location, VenueIndex.Build as written fails as a whole and
produces no mapping, whereas the behavior the spec prescribes (skip the
malformed record) keeps the well-formed one. -/
theorem venueIndex_malformed_is_fatal :
    buildVenueIndex [rawVenueEx, rawVenueNoLoc] = none ∧
    buildVenueIndexSkip [rawVenueEx, rawVenueNoLoc] = [("p1", venueEx)] := by
  decide

/-! C2, C3 and C5: the visible marker set -/

theorem proximityGate_true (temp : Venue) (centre : Centre) :
    proximityGate temp centre = true := by
  simp [proximityGate]

/-- The render body with the dead proximity gate eliminated by proof:
equivalent unfolded form of `markerFor` used by the theorems below. -/
theorem markerFor_unfold (places : Dict Venue) (events : Dict (List EventOccurrence))
    (sdate edate : Int) (centre : Centre) (index : String) :
    markerFor places events sdate edate centre index =
      match dictGet events index, dictGet places index with
      | some event, some temp =>
        if (validEvent sdate edate event).length > 0
        then some ⟨index, temp, validEvent sdate edate event⟩
        else none
      | _, _ => none := by
  unfold markerFor
  cases dictGet events index with
  | none => rfl
  | some event =>
    cases dictGet places index with
    | none => rfl
    | some temp => simp [proximityGate_true]

/-- C5: the proximity gate is short-circuited by the trailing `|| true`, so
the computed marker list does not depend on the tracked map center: any two
viewport centers yield the same entries. -/
theorem visibleMarkerSet_centre_independent (places : Dict Venue)
    (events : Dict (List EventOccurrence)) (sdate edate : Int) (c1 c2 : Centre) :
    visibleMarkerSet places events sdate edate c1 =
      visibleMarkerSet places events sdate edate c2 := by
  unfold visibleMarkerSet
  congr 1
  funext index
  rw [markerFor_unfold, markerFor_unfold]

theorem markerFor_some (places : Dict Venue) (events : Dict (List EventOccurrence))
    (sdate edate : Int) (centre : Centre) (index : String) (e : MarkerEntry)
    (h : markerFor places events sdate edate centre index = some e) :
    ∃ event temp, dictGet events index = some event ∧
      dictGet places index = some temp ∧
      validEvent sdate edate event ≠ [] ∧
      e = ⟨index, temp, validEvent sdate edate event⟩ := by
  rw [markerFor_unfold] at h
  split at h
  · rename_i event temp heq heq2
    by_cases hlen : (validEvent sdate edate event).length > 0
    · rw [if_pos hlen] at h
      refine ⟨event, temp, heq, heq2, ?_, (Option.some_inj.mp h).symm⟩
      intro hnil
      rw [hnil] at hlen
      simp at hlen
    · rw [if_neg hlen] at h
      exact Option.noConfusion h
  · exact Option.noConfusion h

/-- C2: every entry emitted by the visible marker set has a non-empty
occurrence list, and a venue id all of whose occurrences are removed by the
date-range filter contributes no entry at all. -/
theorem visibleMarkerSet_nonempty (places : Dict Venue)
    (events : Dict (List EventOccurrence)) (sdate edate : Int) (centre : Centre) :
    (∀ e ∈ visibleMarkerSet places events sdate edate centre,
      e.occurrences ≠ []) ∧
    (∀ k l, dictGet events k = some l → validEvent sdate edate l = [] →
      ∀ e ∈ visibleMarkerSet places events sdate edate centre, e.venueId ≠ k) := by
  constructor
  · intro e he
    obtain ⟨index, -, hm⟩ := List.mem_filterMap.mp he
    obtain ⟨event, temp, hg, hp, hne, hee⟩ :=
      markerFor_some places events sdate edate centre index e hm
    rw [hee]
    exact hne
  · intro k l hk hempty e he hek
    obtain ⟨index, -, hm⟩ := List.mem_filterMap.mp he
    obtain ⟨event, temp, hg, hp, hne, hee⟩ :=
      markerFor_some places events sdate edate centre index e hm
    have hik : index = k := by rw [hee] at hek; exact hek
    rw [hik, hk] at hg
    have hle : l = event := Option.some_inj.mp hg
    exact hne (hle ▸ hempty)

theorem markerFor_none_of_no_place (places : Dict Venue)
    (events : Dict (List EventOccurrence)) (sdate edate : Int) (centre : Centre)
    (index : String) (h : dictGet places index = none) :
    markerFor places events sdate edate centre index = none := by
  unfold markerFor
  cases hg : dictGet events index <;> simp [h]

theorem markerFor_remove_ne (places : Dict Venue)
    (events : Dict (List EventOccurrence)) (sdate edate : Int) (centre : Centre)
    (k index : String) (h : index ≠ k) :
    markerFor places (dictRemove events k) sdate edate centre index =
      markerFor places events sdate edate centre index := by
  unfold markerFor
  rw [dictGet_dictRemove events k index h]

theorem filterMap_filter_ne (g g' : String → Option MarkerEntry) (k : String)
    (keys : List String) (h1 : g k = none) (h2 : ∀ x, x ≠ k → g' x = g x) :
    (keys.filter (fun x => !(x = k : Bool))).filterMap g' = keys.filterMap g := by
  induction keys with
  | nil => rfl
  | cons x t ih =>
    by_cases hx : x = k
    · subst hx
      simp [List.filter_cons, List.filterMap_cons, h1, ih]
    · simp [List.filter_cons, List.filterMap_cons, hx, h2 x hx, ih]

/-- C3: an event-index key whose venue id is absent from the venue index is
silently excluded: no entry is emitted for it, and removing that key from
the event index leaves the computed marker list unchanged (entries for
other venue ids are unaffected). -/
theorem dangling_reference_excluded (places : Dict Venue)
    (events : Dict (List EventOccurrence)) (sdate edate : Int) (centre : Centre)
    (k : String) (hk : dictGet places k = none) :
    (∀ e ∈ visibleMarkerSet places events sdate edate centre, e.venueId ≠ k) ∧
    visibleMarkerSet places (dictRemove events k) sdate edate centre =
      visibleMarkerSet places events sdate edate centre := by
  constructor
  · intro e he hek
    obtain ⟨index, -, hm⟩ := List.mem_filterMap.mp he
    obtain ⟨event, temp, hg, hp, hne, hee⟩ :=
      markerFor_some places events sdate edate centre index e hm
    have hik : index = k := by rw [hee] at hek; exact hek
    rw [hik, hk] at hp
    exact Option.noConfusion hp
  · unfold visibleMarkerSet
    rw [dictKeys_dictRemove]
    apply filterMap_filter_ne
    · exact markerFor_none_of_no_place places events sdate edate centre k hk
    · intro x hx
      exact markerFor_remove_ne places events sdate edate centre k x hx

/-- The venue used by concrete marker-set witnesses (id v1). -/
def venueV1 : Venue := ⟨"3 Street", "Main Stage", "v1", 55, -3, [], "Edinburgh"⟩

/-- A concrete venue index with the single known venue v1. -/
def placesEx : Dict Venue := [("v1", venueV1)]

/-- A concrete event index: v1 holds two occurrences (starts 100 and 500),
and vGhost is a dangling venue id with one occurrence. -/
def eventsEx : Dict (List EventOccurrence) :=
  [("v1", [occEx, occEx2]), ("vGhost", [occEx2])]

/-- A concrete map center. -/
def centreEx : Centre := ⟨55, -3⟩

/-- Evaluation of the concrete marker set: only the v1 entry survives, with
the single occurrence inside the 0..300 range. -/
theorem visibleMarkerSetEx_eval :
    visibleMarkerSet placesEx eventsEx 0 300 centreEx =
      [⟨"v1", venueV1, [occEx]⟩] := by
  rw [visibleMarkerSet,
    show dictKeys eventsEx = ["v1", "vGhost"] from rfl,
    List.filterMap_cons, List.filterMap_cons, List.filterMap_nil,
    markerFor_unfold, markerFor_unfold,
    show dictGet eventsEx "v1" = some [occEx, occEx2] from rfl,
    show dictGet placesEx "v1" = some venueV1 from rfl,
    show dictGet eventsEx "vGhost" = some [occEx2] from rfl,
    show dictGet placesEx "vGhost" = (none : Option Venue) from rfl]
  decide

/-- Witness for C2 at a concrete input: the entry emitted for v1 under the
range 0..300 carries the non-empty list holding exactly occEx. -/
theorem visibleMarkerSet_nonempty_witness :
    (⟨"v1", venueV1, [occEx]⟩ : MarkerEntry) ∈
      visibleMarkerSet placesEx eventsEx 0 300 centreEx ∧
    ([occEx] : List EventOccurrence) ≠ [] := by
  have hmem : (⟨"v1", venueV1, [occEx]⟩ : MarkerEntry) ∈
      visibleMarkerSet placesEx eventsEx 0 300 centreEx := by
    rw [visibleMarkerSetEx_eval]
    exact List.mem_singleton.mpr rfl
  exact ⟨hmem,
    (visibleMarkerSet_nonempty placesEx eventsEx 0 300 centreEx).1
      ⟨"v1", venueV1, [occEx]⟩ hmem⟩

/-- Witness for C3 at a concrete input: vGhost has no venue record, and
removing its key from the event index leaves the marker list unchanged. -/
theorem dangling_reference_excluded_witness :
    dictGet placesEx "vGhost" = none ∧
    visibleMarkerSet placesEx (dictRemove eventsEx "vGhost") 0 300 centreEx =
      visibleMarkerSet placesEx eventsEx 0 300 centreEx :=
  ⟨rfl,
    (dangling_reference_excluded placesEx eventsEx 0 300 centreEx "vGhost"
      rfl).2⟩

/-! C8: the detail slot -/

/-- C8: a completed detail fetch overwrites the slot with its payload
unconditionally, so after any sequence of completions the slot holds the
last completion's payload. -/
theorem detailSlot_last_write_wins {α : Type} (init x : α) (cs : List α) :
    fetchhComplete init x = x ∧ detailSlotAfter init (cs ++ [x]) = x := by
  refine ⟨rfl, ?_⟩
  induction cs generalizing init with
  | nil => rfl
  | cons c t ih => exact ih c

/-! C9: triggers of the detail fetch -/

/-- C9 counterexample: the mount effect issues a detail request (for id 1),
so it is false that detail requests arise only from popup clicks. -/
theorem detailFetch_not_user_only :
    detailRequestsOf UITrigger.mount = ["1"] ∧
    ¬ ∀ t : UITrigger, detailRequestsOf t ≠ [] →
        ∃ id, t = UITrigger.popupDetailClick id := by
  refine ⟨rfl, ?_⟩
  intro hclaim
  obtain ⟨id, hid⟩ := hclaim UITrigger.mount (by decide)
  exact UITrigger.noConfusion hid

/-- C9 amended: a detail fetch is initiated either by a user click on a popup
entry or by the component's initial mount effect (which requests id 1);
date-range changes and viewport changes issue none. -/
theorem detailFetch_triggers (t : UITrigger) (s e : Int) (c : Centre) :
    detailRequestsOf (UITrigger.dateRangeChange s e) = [] ∧
    detailRequestsOf (UITrigger.viewportChange c) = [] ∧
    (detailRequestsOf t ≠ [] →
      t = UITrigger.mount ∨ ∃ id, t = UITrigger.popupDetailClick id) := by
  refine ⟨rfl, rfl, ?_⟩
  intro h
  cases t with
  | mount => exact Or.inl rfl
  | dateRangeChange s' e' => exact absurd rfl h
  | viewportChange c' => exact absurd rfl h
  | popupDetailClick id => exact Or.inr ⟨id, rfl⟩

/-- Witness for the amended C9 at a concrete input: a popup click on event e1
issues a request and is one of the two permitted triggers. -/
theorem detailFetch_triggers_witness :
    detailRequestsOf (UITrigger.dateRangeChange 0 1) = [] ∧
    detailRequestsOf (UITrigger.viewportChange ⟨55, -3⟩) = [] ∧
    (UITrigger.popupDetailClick "e1" = UITrigger.mount ∨
      ∃ id, UITrigger.popupDetailClick "e1" = UITrigger.popupDetailClick id) := by
  have h := detailFetch_triggers (UITrigger.popupDetailClick "e1") 0 1 ⟨55, -3⟩
  exact ⟨h.1, h.2.1, h.2.2 (by decide)⟩

end FestivalMap
